import Mathlib

/-!
Verification of the date-calculation core of the calculator repository.

The repository's visible source (`src/Calculator/pch.h`, which embeds the
`DateCalculatorViewModel` implementation) contains the view-model glue:
property-changed dispatch (`OnPropertyChanged`), recomputation
(`OnInputsChanged`), and the time normalization helper (`ClipTime`).
The date-arithmetic engine itself (`DateCalculationEngine` with
`GetDateDifference`, `AddDuration`, `SubtractDuration`) is referenced by the
view-model but its source is not part of the visible files, so the engine is
modelled from the specification (sections 3, 4.1, 4.2), over a Gregorian
calendar with the representable range year 1 through year 9999 that the
specification names.

Dates are modelled as (year, month, day) triples of natural numbers; the
linear timestamp order used by the engine's operand swap is the day-number
order (`toDayNumber`), mirroring comparison of `DateTime.UniversalTime`.
-/

namespace DateCalc

/-- Modelled from the spec: Gregorian leap-year rule used by the
CalendarAdapter (divisible by 4 and not by 100, or divisible by 400). -/
def isLeapYear (y : Nat) : Bool :=
  (y % 4 == 0 && y % 100 != 0) || (y % 400 == 0)

/-- Modelled from the spec: length of month `m` (1..12) given the leap flag. -/
def monthLength (leap : Bool) (m : Nat) : Nat :=
  match m with
  | 1 => 31
  | 2 => if leap then 29 else 28
  | 3 => 31
  | 4 => 30
  | 5 => 31
  | 6 => 30
  | 7 => 31
  | 8 => 31
  | 9 => 30
  | 10 => 31
  | 11 => 30
  | 12 => 31
  | _ => 0

/-- Days in month `m` of year `y`. -/
def daysInMonth (y m : Nat) : Nat := monthLength (isLeapYear y) m

/-- A calendar date: the field view of a Timestamp exposed by the
CalendarAdapter. -/
structure Date where
  year : Nat
  month : Nat
  day : Nat
deriving DecidableEq, Repr

/-- A date is valid when its year is at least 1 (the Gregorian range the spec
names starts at year 1), its month is 1..12 and its day fits the month. -/
def ValidDate (d : Date) : Prop :=
  1 ≤ d.year ∧ 1 ≤ d.month ∧ d.month ≤ 12 ∧ 1 ≤ d.day ∧ d.day ≤ daysInMonth d.year d.month

instance (d : Date) : Decidable (ValidDate d) := by
  unfold ValidDate; infer_instance

/-- Cumulative days before month `m` within a year (m ranges over 1..13;
entry 13 is the year length). -/
def daysBeforeMonth (leap : Bool) (m : Nat) : Nat :=
  match m with
  | 1 => 0
  | 2 => 31
  | 3 => if leap then 60 else 59
  | 4 => if leap then 91 else 90
  | 5 => if leap then 121 else 120
  | 6 => if leap then 152 else 151
  | 7 => if leap then 182 else 181
  | 8 => if leap then 213 else 212
  | 9 => if leap then 244 else 243
  | 10 => if leap then 274 else 273
  | 11 => if leap then 305 else 304
  | 12 => if leap then 335 else 334
  | 13 => if leap then 366 else 365
  | _ => 0

/-- Leap days occurring in years 1..y-1. -/
def leapDaysBefore (y : Nat) : Nat :=
  (y - 1) / 4 + (y - 1) / 400 - (y - 1) / 100

/-- Days elapsed before January 1 of year `y`, counting from 0001-01-01. -/
def daysBeforeYear (y : Nat) : Nat := 365 * (y - 1) + leapDaysBefore y

/-- Linear day number of a date (0001-01-01 has day number 1).  This is the
model of the linear `UniversalTime` axis at whole-day granularity. -/
def toDayNumber (d : Date) : Nat :=
  daysBeforeYear d.year + daysBeforeMonth (isLeapYear d.year) d.month + d.day

/-- Smallest representable date of the calendar range the spec names. -/
def minDate : Date := ⟨1, 1, 1⟩

/-- Largest representable date of the calendar range the spec names. -/
def maxDate : Date := ⟨9999, 12, 31⟩

/-- Lexicographic strict order on the (year, month, day) field view. -/
def dateLexLt (a b : Date) : Prop :=
  a.year < b.year ∨ (a.year = b.year ∧
    (a.month < b.month ∨ (a.month = b.month ∧ a.day < b.day)))

/-- Lexicographic order on the (year, month, day) field view. -/
def dateLexLe (a b : Date) : Prop :=
  a.year < b.year ∨ (a.year = b.year ∧
    (a.month < b.month ∨ (a.month = b.month ∧ a.day ≤ b.day)))

instance (a b : Date) : Decidable (dateLexLt a b) := by
  unfold dateLexLt; infer_instance

instance (a b : Date) : Decidable (dateLexLe a b) := by
  unfold dateLexLe; infer_instance

/-! ### The date-calculation engine, modelled from the spec -/

/-- The structured difference/offset record the engine produces and consumes
(named `DateDifference` as in the view-model source).  Fields are
non-negative; direction is carried by the choice of `AddDuration` versus
`SubtractDuration`. -/
structure DateDifference where
  year : Nat
  month : Nat
  week : Nat
  day : Nat
deriving DecidableEq, Repr

/-- Which duration fields a difference call populates (the `DateUnit` flags
of the view-model source). -/
structure DateUnitMask where
  year : Bool
  month : Bool
  week : Bool
  day : Bool
deriving DecidableEq, Repr

/-- The output format the view-model builds in `InitializeDateOutputFormats`:
`DateUnit::Year | DateUnit::Month | DateUnit::Week | DateUnit::Day`. -/
def allDateUnitsOutputFormat : DateUnitMask := ⟨true, true, true, true⟩

/-- The output format the view-model builds in `InitializeDateOutputFormats`:
`DateUnit::Day` alone. -/
def daysOutputFormat : DateUnitMask := ⟨false, false, false, true⟩

/-- Zero-based count of whole months from the calendar origin; the axis on
which adapter-level month rollover is linear. -/
def monthIndex (d : Date) : Nat := (d.year - 1) * 12 + (d.month - 1)

/-- Modelled from the spec: adapter-level subtraction of `n` whole years,
clamping the day-of-month when the target month is shorter (Feb 29 to a
non-leap year becomes Feb 28). -/
def subYears (d : Date) (n : Nat) : Date :=
  let y := d.year - n
  ⟨y, d.month, min d.day (daysInMonth y d.month)⟩

/-- Modelled from the spec: adapter-level subtraction of `n` whole months
with month rollover across year boundaries and day-of-month clamping. -/
def subMonths (d : Date) (n : Nat) : Date :=
  let i := monthIndex d - n
  let y := i / 12 + 1
  let m := i % 12 + 1
  ⟨y, m, min d.day (daysInMonth y m)⟩

/-- Modelled from the spec: adapter-level addition of `n` whole years with
day-of-month clamping. -/
def addYears (d : Date) (n : Nat) : Date :=
  let y := d.year + n
  ⟨y, d.month, min d.day (daysInMonth y d.month)⟩

/-- Modelled from the spec: adapter-level addition of `n` whole months with
month rollover and day-of-month clamping. -/
def addMonths (d : Date) (n : Nat) : Date :=
  let i := monthIndex d + n
  let y := i / 12 + 1
  let m := i % 12 + 1
  ⟨y, m, min d.day (daysInMonth y m)⟩

/-- Modelled from the spec (section 4.1 step 2): whole calendar years between
`s` and `e` (with `s` the earlier date), decremented by one when the later
date's (month, day) precedes the earlier date's (month, day). -/
def wholeYearsBetween (s e : Date) : Nat :=
  (e.year - s.year) -
    (if e.month < s.month ∨ (e.month = s.month ∧ e.day < s.day) then 1 else 0)

/-- Modelled from the spec (section 4.1 step 3): whole calendar months between
`s` and `e` on the month-rollover axis, decremented by one when the later
date's day-of-month precedes the earlier date's. -/
def wholeMonthsBetween (s e : Date) : Nat :=
  (monthIndex e - monthIndex s) - (if e.day < s.day then 1 else 0)

/-- Modelled from the spec (section 4.1 steps 2-5): the magnitude computation
of `GetDateDifference` once operands are ordered with `s` earlier than `e`.
Whole years are removed from the later endpoint (when requested), then whole
months (when requested); the remaining whole-day count is split into weeks
and days when weeks are requested, otherwise reported entirely as days;
unrequested fields are zero. -/
def diffMagnitude (s e : Date) (mask : DateUnitMask) : DateDifference :=
  let y := if mask.year then wholeYearsBetween s e else 0
  let r1 := subYears e y
  let m := if mask.month then wholeMonthsBetween s r1 else 0
  let r2 := subMonths r1 m
  let rem := toDayNumber r2 - toDayNumber s
  let w := if mask.week then rem / 7 else 0
  let d := if mask.day then (if mask.week then rem % 7 else rem) else 0
  ⟨y, m, w, d⟩

/-- Modelled from the spec (section 4.1): `GetDateDifference` swaps its
operands when `toDate` precedes `fromDate` on the timestamp axis and reports
the unsigned magnitude. -/
def GetDateDifference (fromDate toDate : Date) (mask : DateUnitMask) : DateDifference :=
  if toDayNumber toDate < toDayNumber fromDate then
    diffMagnitude toDate fromDate mask
  else
    diffMagnitude fromDate toDate mask

/-- Stated from the spec's testable property (section 8): re-sum a decomposed
difference into a total day count using the calendar.  The whole years and
whole months of the duration are converted to days by measuring, on the
calendar, the span they remove from the later endpoint (the same adapter
subtraction the difference algorithm uses); the week field contributes seven
days each and the day field contributes itself. -/
def reSumTotalDays (toDate : Date) (diff : DateDifference) : Nat :=
  (toDayNumber toDate - toDayNumber (subMonths (subYears toDate diff.year) diff.month))
    + 7 * diff.week + diff.day

/-- Successor date on the calendar (adapter-level day rollover forward). -/
def nextDay (d : Date) : Date :=
  if d.day < daysInMonth d.year d.month then ⟨d.year, d.month, d.day + 1⟩
  else if d.month < 12 then ⟨d.year, d.month + 1, 1⟩
  else ⟨d.year + 1, 1, 1⟩

/-- Predecessor date on the calendar (adapter-level day rollover backward). -/
def prevDay (d : Date) : Date :=
  if 1 < d.day then ⟨d.year, d.month, d.day - 1⟩
  else if 1 < d.month then ⟨d.year, d.month - 1, daysInMonth d.year (d.month - 1)⟩
  else ⟨d.year - 1, 12, 31⟩

/-- Modelled from the spec: day-offset step of `AddDuration`; fails (with no
usable result) when the walk would pass the largest representable date. -/
def addDaysChecked : Date → Nat → Option Date
  | d, 0 => some d
  | d, Nat.succ n => if d = maxDate then none else addDaysChecked (nextDay d) n

/-- Modelled from the spec: day-offset step of `SubtractDuration`; fails when
the walk would pass the smallest representable date. -/
def subDaysChecked : Date → Nat → Option Date
  | d, 0 => some d
  | d, Nat.succ n => if d = minDate then none else subDaysChecked (prevDay d) n

/-- Modelled from the spec: year-offset step of `AddDuration`; fails when the
target year leaves the representable range. -/
def addYearsChecked (d : Date) (n : Nat) : Option Date :=
  if d.year + n ≤ 9999 then some (addYears d n) else none

/-- Modelled from the spec: month-offset step of `AddDuration`; fails when
month rollover carries the year past the representable range. -/
def addMonthsChecked (d : Date) (n : Nat) : Option Date :=
  if (monthIndex d + n) / 12 + 1 ≤ 9999 then some (addMonths d n) else none

/-- Modelled from the spec: year-offset step of `SubtractDuration`; fails when
the target year would precede year 1. -/
def subYearsChecked (d : Date) (n : Nat) : Option Date :=
  if n < d.year then some (subYears d n) else none

/-- Modelled from the spec: month-offset step of `SubtractDuration`; fails
when month rollover would pass before January of year 1. -/
def subMonthsChecked (d : Date) (n : Nat) : Option Date :=
  if n ≤ monthIndex d then some (subMonths d n) else none

/-- Modelled from the spec (section 4.2): `AddDuration` applies the year
offset, then the month offset, then the day offset, in that order, through
the CalendarAdapter; `none` models returning `false` with the output
parameter untouched.  The `week` field of the duration is ignored as an
input unit. -/
def AddDuration (startDate : Date) (duration : DateDifference) : Option Date :=
  (addYearsChecked startDate duration.year).bind fun d1 =>
    (addMonthsChecked d1 duration.month).bind fun d2 =>
      addDaysChecked d2 duration.day

/-- Modelled from the spec (section 4.2): `SubtractDuration` moves backward,
negating each field of the duration and applying year, month, day offsets in
that order. -/
def SubtractDuration (startDate : Date) (duration : DateDifference) : Option Date :=
  (subYearsChecked startDate duration.year).bind fun d1 =>
    (subMonthsChecked d1 duration.month).bind fun d2 =>
      subDaysChecked d2 duration.day

/-! ### The view-model layer, embedded from `DateCalculatorViewModel`
(`src/Calculator/pch.h`) -/

/-- A `DateTime` as the view-model sees it: a calendar day plus a time of day
(ticks past midnight UTC; the concrete tick unit is irrelevant to the
claims). -/
structure DateTimeVM where
  date : Date
  timeOfDay : Nat
deriving DecidableEq, Repr

/-- `DateCalculatorViewModel::ClipTime`: adjusts the given `DateTime` to 12AM
(UTC) of the same day by setting, on a UTC calendar, the period to the first
period of the day, the hour to the first hour of that period, and minute,
second and nanosecond to zero - i.e. the time of day becomes zero while the
calendar day is kept. -/
def ClipTime (dateTime : DateTimeVM) : DateTimeVM :=
  ⟨dateTime.date, 0⟩

/-- `AddDuration` lifted to timestamps that carry a time of day: the calendar
fields move, the time of day is preserved. -/
def addDurationVM (t : DateTimeVM) (dur : DateDifference) : Option DateTimeVM :=
  (AddDuration t.date dur).map fun d => ⟨d, t.timeOfDay⟩

/-- `SubtractDuration` lifted to timestamps that carry a time of day. -/
def subtractDurationVM (t : DateTimeVM) (dur : DateDifference) : Option DateTimeVM :=
  (SubtractDuration t.date dur).map fun d => ⟨d, t.timeOfDay⟩

/-- The view-model inputs read by `OnInputsChanged`: the mode flags, the two
difference operands, the offset start date and the three offset fields. -/
structure VMState where
  isDateDiffMode : Bool
  isAddMode : Bool
  fromDate : DateTimeVM
  toDate : DateTimeVM
  startDate : DateTimeVM
  daysOffset : Nat
  monthsOffset : Nat
  yearsOffset : Nat
deriving DecidableEq, Repr

/-- The duration `OnInputsChanged` builds from the offset fields
(`dateDiff.day = DaysOffset; dateDiff.month = MonthsOffset;
dateDiff.year = YearsOffset`; the week field stays zero). -/
def offsetDuration (s : VMState) : DateDifference :=
  ⟨s.yearsOffset, s.monthsOffset, 0, s.daysOffset⟩

/-- One invocation of the engine as issued by the view-model. -/
inductive EngineCall where
  | getDateDifference (fromDate toDate : DateTimeVM) (mask : DateUnitMask)
  | addDuration (startDate : DateTimeVM) (duration : DateDifference)
  | subtractDuration (startDate : DateTimeVM) (duration : DateDifference)
deriving DecidableEq, Repr

/-- The engine invocations `DateCalculatorViewModel::OnInputsChanged` issues,
in order: in date-difference mode two `GetDateDifference` calls on the
clipped operands (all-units format, then days format); otherwise one
`AddDuration` or `SubtractDuration` call on the unclipped start date. -/
def onInputsChangedCalls (s : VMState) : List EngineCall :=
  if s.isDateDiffMode then
    [.getDateDifference (ClipTime s.fromDate) (ClipTime s.toDate) allDateUnitsOutputFormat,
     .getDateDifference (ClipTime s.fromDate) (ClipTime s.toDate) daysOutputFormat]
  else if s.isAddMode then
    [.addDuration s.startDate (offsetDuration s)]
  else
    [.subtractDuration s.startDate (offsetDuration s)]

/-- The output properties `OnInputsChanged` writes. -/
structure VMResults where
  dateDiffResult : DateDifference
  dateDiffResultInDays : DateDifference
  isOutOfBound : Bool
  dateResult : DateTimeVM
deriving DecidableEq, Repr

/-- State effect of `DateCalculatorViewModel::OnInputsChanged`: in
date-difference mode it stores the two difference results; otherwise it runs
the offset operation, records `IsOutOfBound` as the negated success flag and
writes `DateResult` only when the operation succeeded. -/
def onInputsChanged (s : VMState) (r : VMResults) : VMResults :=
  if s.isDateDiffMode then
    { r with
      dateDiffResult :=
        GetDateDifference (ClipTime s.fromDate).date (ClipTime s.toDate).date
          allDateUnitsOutputFormat,
      dateDiffResultInDays :=
        GetDateDifference (ClipTime s.fromDate).date (ClipTime s.toDate).date
          daysOutputFormat }
  else
    match
      (if s.isAddMode then addDurationVM s.startDate (offsetDuration s)
       else subtractDurationVM s.startDate (offsetDuration s)) with
    | some res => { r with isOutOfBound := false, dateResult := res }
    | none => { r with isOutOfBound := true }

/-- What `DateCalculatorViewModel::OnPropertyChanged` does in reaction to a
property name. -/
inductive PropAction where
  | updateDiffAutomationName
  | updateResultAutomationName
  | recompute
  | noAction
deriving DecidableEq, Repr

/-- `DateCalculatorViewModel::OnPropertyChanged`: a change of
`StrDateDiffResult` or `StrDateResult` only refreshes the corresponding
automation name; a change of any property other than those two, the two
automation names, `StrDateDiffResultInDays` and `IsDiffInDays` triggers
`OnInputsChanged`. -/
def OnPropertyChanged (prop : String) : PropAction :=
  if prop = "StrDateDiffResult" then .updateDiffAutomationName
  else if prop = "StrDateResult" then .updateResultAutomationName
  else if prop ≠ "StrDateDiffResultAutomationName"
      ∧ prop ≠ "StrDateDiffResultInDays"
      ∧ prop ≠ "StrDateResultAutomationName"
      ∧ prop ≠ "IsDiffInDays" then .recompute
  else .noAction

/-- The six property names the dispatch of `OnPropertyChanged` singles out. -/
def outputPropertyNames : List String :=
  ["StrDateDiffResult", "StrDateResult",
   "StrDateDiffResultAutomationName", "StrDateDiffResultInDays",
   "StrDateResultAutomationName", "IsDiffInDays"]

/-! ### Calendar lemmas -/

section CalendarLemmas

theorem monthLength_ge (leap : Bool) :
    ∀ m < 13, 1 ≤ m → 28 ≤ monthLength leap m := by
  cases leap <;> decide

theorem daysBeforeMonth_succ (leap : Bool) :
    ∀ m < 13, 1 ≤ m →
      daysBeforeMonth leap (m + 1) = daysBeforeMonth leap m + monthLength leap m := by
  cases leap <;> decide

theorem daysBeforeMonth_mono (leap : Bool) :
    ∀ m1 < 14, ∀ m2 < 14, m1 ≤ m2 →
      daysBeforeMonth leap m1 ≤ daysBeforeMonth leap m2 := by
  cases leap <;> decide

theorem daysBeforeMonth_thirteen (leap : Bool) :
    daysBeforeMonth leap 13 = if leap then 366 else 365 := by
  cases leap <;> rfl

theorem daysBeforeYear_succ (y : Nat) (hy : 1 ≤ y) :
    daysBeforeYear (y + 1) =
      daysBeforeYear y + (if isLeapYear y then 366 else 365) := by
  unfold daysBeforeYear leapDaysBefore isLeapYear
  have h4 : (y - 1 + 1) / 4 = (y - 1) / 4 + if 4 ∣ (y - 1 + 1) then 1 else 0 :=
    Nat.succ_div (y - 1) 4
  have h100 : (y - 1 + 1) / 100 = (y - 1) / 100 + if 100 ∣ (y - 1 + 1) then 1 else 0 :=
    Nat.succ_div (y - 1) 100
  have h400 : (y - 1 + 1) / 400 = (y - 1) / 400 + if 400 ∣ (y - 1 + 1) then 1 else 0 :=
    Nat.succ_div (y - 1) 400
  have hd4 : (y - 1) / 100 ≤ (y - 1) / 4 := by
    apply Nat.div_le_div_left <;> omega
  have hsub : y - 1 + 1 = y := by omega
  rw [hsub] at h4 h100 h400
  have hy1 : y + 1 - 1 = y := by omega
  rw [hy1]
  split_ifs at h4 h100 h400 ⊢ <;>
    simp_all [Bool.or_eq_true, Bool.and_eq_true, beq_iff_eq, bne_iff_ne,
      Nat.dvd_iff_mod_eq_zero] <;> omega

theorem daysBeforeYear_mono {y1 y2 : Nat} (h : y1 ≤ y2) :
    daysBeforeYear y1 ≤ daysBeforeYear y2 := by
  induction y2 with
  | zero => simp_all
  | succ n ih =>
    rcases Nat.lt_or_ge y1 (n + 1) with hlt | hge
    · have h1 : daysBeforeYear y1 ≤ daysBeforeYear n := ih (by omega)
      rcases Nat.eq_zero_or_pos n with hn | hn
      · subst hn
        simp [daysBeforeYear, leapDaysBefore] at h1 ⊢
        omega
      · rw [daysBeforeYear_succ n hn]
        split <;> omega
    · have : y1 = n + 1 := by omega
      subst this; exact le_refl _

theorem toDayNumber_pos {d : Date} (hd : ValidDate d) : 1 ≤ toDayNumber d := by
  obtain ⟨h0, h1, h2, h3, h4⟩ := hd
  unfold toDayNumber
  omega

theorem toDayNumber_le_year_end {d : Date} (hd : ValidDate d) :
    toDayNumber d ≤ daysBeforeYear (d.year + 1) := by
  obtain ⟨h0, h1, h2, h3, h4⟩ := hd
  have hsucc := daysBeforeMonth_succ (isLeapYear d.year) d.month (by omega) h1
  have hmono := daysBeforeMonth_mono (isLeapYear d.year) (d.month + 1) (by omega) 13
    (by omega) (by omega)
  have h13 := daysBeforeMonth_thirteen (isLeapYear d.year)
  have hy := daysBeforeYear_succ d.year h0
  unfold toDayNumber daysInMonth at *
  rw [hy]
  split at h13 <;> split <;> omega

theorem toDayNumber_lt_of_lex {a b : Date}
    (ha : ValidDate a) (hb : ValidDate b) (hlt : dateLexLt a b) :
    toDayNumber a < toDayNumber b := by
  obtain ⟨ha0, ha1, ha2, ha3, ha4⟩ := ha
  rcases hlt with hy | ⟨hy, hm | ⟨hm, hd⟩⟩
  · -- different years: a is bounded by the end of its year
    obtain ⟨hb0, hb1, hb2, hb3, hb4⟩ := hb
    have h1 : toDayNumber a ≤ daysBeforeYear (a.year + 1) :=
      toDayNumber_le_year_end ⟨ha0, ha1, ha2, ha3, ha4⟩
    have h2 : daysBeforeYear (a.year + 1) ≤ daysBeforeYear b.year :=
      daysBeforeYear_mono (by omega)
    unfold toDayNumber at *
    omega
  · -- same year, a.month < b.month
    obtain ⟨hb0, hb1, hb2, hb3, hb4⟩ := hb
    have hL : isLeapYear a.year = isLeapYear b.year := by rw [hy]
    have hY : daysBeforeYear a.year = daysBeforeYear b.year := by rw [hy]
    have hsucc := daysBeforeMonth_succ (isLeapYear b.year) a.month (by omega) ha1
    have hmono := daysBeforeMonth_mono (isLeapYear b.year) (a.month + 1) (by omega)
      b.month (by omega) (by omega)
    unfold toDayNumber daysInMonth at *
    rw [hL, hY]
    rw [hL] at ha4
    omega
  · -- same year and month, a.day < b.day
    unfold toDayNumber
    rw [hy, hm]
    omega

theorem toDayNumber_le_of_lex {a b : Date}
    (ha : ValidDate a) (hb : ValidDate b) (hle : dateLexLe a b) :
    toDayNumber a ≤ toDayNumber b := by
  rcases hle with hy | ⟨hy, hm | ⟨hm, hd⟩⟩
  · exact le_of_lt (toDayNumber_lt_of_lex ha hb (Or.inl hy))
  · exact le_of_lt (toDayNumber_lt_of_lex ha hb (Or.inr ⟨hy, Or.inl hm⟩))
  · rcases Nat.lt_or_ge a.day b.day with hlt | hge
    · exact le_of_lt (toDayNumber_lt_of_lex ha hb (Or.inr ⟨hy, Or.inr ⟨hm, hlt⟩⟩))
    · have hda : a.day = b.day := by omega
      unfold toDayNumber
      rw [hy, hm, hda]

theorem dateLex_trichotomy (a b : Date) : dateLexLt a b ∨ a = b ∨ dateLexLt b a := by
  obtain ⟨ya, ma, da⟩ := a
  obtain ⟨yb, mb, db⟩ := b
  simp only [dateLexLt, Date.mk.injEq]
  omega

theorem dateLexLe_of_not_lt {a b : Date} (h : ¬ dateLexLt b a) : dateLexLe a b := by
  obtain ⟨ya, ma, da⟩ := a
  obtain ⟨yb, mb, db⟩ := b
  simp only [dateLexLt, dateLexLe] at *
  omega

theorem toDayNumber_inj {a b : Date}
    (ha : ValidDate a) (hb : ValidDate b) (h : toDayNumber a = toDayNumber b) :
    a = b := by
  rcases dateLex_trichotomy a b with hlt | heq | hgt
  · have := toDayNumber_lt_of_lex ha hb hlt; omega
  · exact heq
  · have := toDayNumber_lt_of_lex hb ha hgt; omega

theorem dateLexLe_of_toDayNumber_le {a b : Date}
    (ha : ValidDate a) (hb : ValidDate b) (h : toDayNumber a ≤ toDayNumber b) :
    dateLexLe a b := by
  rcases dateLex_trichotomy a b with hlt | heq | hgt
  · obtain ⟨ya, ma, da⟩ := a
    obtain ⟨yb, mb, db⟩ := b
    simp only [dateLexLt, dateLexLe] at *
    omega
  · subst heq
    exact Or.inr ⟨rfl, Or.inr ⟨rfl, le_refl _⟩⟩
  · have := toDayNumber_lt_of_lex hb ha hgt; omega

end CalendarLemmas

/-! ### Adapter-operation lemmas -/

section AdapterLemmas

theorem monthLength_one (leap : Bool) : monthLength leap 1 = 31 := by
  cases leap <;> rfl

theorem monthLength_twelve (leap : Bool) : monthLength leap 12 = 31 := by
  cases leap <;> rfl

theorem monthIndex_div_twelve {d : Date} (hd : ValidDate d) :
    monthIndex d / 12 + 1 = d.year := by
  obtain ⟨h0, h1, h2, h3, h4⟩ := hd
  unfold monthIndex
  omega

theorem monthIndex_mod_twelve {d : Date} (hd : ValidDate d) :
    monthIndex d % 12 + 1 = d.month := by
  obtain ⟨h0, h1, h2, h3, h4⟩ := hd
  unfold monthIndex
  omega

theorem subYears_zero {d : Date} (hd : ValidDate d) : subYears d 0 = d := by
  obtain ⟨h0, h1, h2, h3, h4⟩ := hd
  unfold subYears daysInMonth at *
  have : min d.day (monthLength (isLeapYear (d.year - 0)) d.month) = d.day := by
    simp only [Nat.sub_zero]
    omega
  simp only [Nat.sub_zero] at this ⊢
  rw [this]

theorem addYears_zero {d : Date} (hd : ValidDate d) : addYears d 0 = d := by
  obtain ⟨h0, h1, h2, h3, h4⟩ := hd
  unfold addYears daysInMonth at *
  have : min d.day (monthLength (isLeapYear (d.year + 0)) d.month) = d.day := by
    simp only [Nat.add_zero]
    omega
  simp only [Nat.add_zero] at this ⊢
  rw [this]

theorem subMonths_zero {d : Date} (hd : ValidDate d) : subMonths d 0 = d := by
  have hdiv := monthIndex_div_twelve hd
  have hmod := monthIndex_mod_twelve hd
  obtain ⟨h0, h1, h2, h3, h4⟩ := hd
  unfold subMonths daysInMonth at *
  simp only [Nat.sub_zero, hdiv, hmod]
  have : min d.day (monthLength (isLeapYear d.year) d.month) = d.day := by omega
  rw [this]

theorem addMonths_zero {d : Date} (hd : ValidDate d) : addMonths d 0 = d := by
  have hdiv := monthIndex_div_twelve hd
  have hmod := monthIndex_mod_twelve hd
  obtain ⟨h0, h1, h2, h3, h4⟩ := hd
  unfold addMonths daysInMonth at *
  simp only [Nat.add_zero, hdiv, hmod]
  have : min d.day (monthLength (isLeapYear d.year) d.month) = d.day := by omega
  rw [this]

theorem subYears_valid {d : Date} (n : Nat) (hd : ValidDate d) (hy : n < d.year) :
    ValidDate (subYears d n) := by
  obtain ⟨h0, h1, h2, h3, h4⟩ := hd
  have h28 := monthLength_ge (isLeapYear (d.year - n)) d.month (by omega) h1
  unfold subYears ValidDate daysInMonth at *
  refine ⟨by simp; omega, by simpa using h1, by simpa using h2, ?_, ?_⟩ <;> simp <;> omega

theorem addYears_valid {d : Date} (n : Nat) (hd : ValidDate d) :
    ValidDate (addYears d n) := by
  obtain ⟨h0, h1, h2, h3, h4⟩ := hd
  have h28 := monthLength_ge (isLeapYear (d.year + n)) d.month (by omega) h1
  unfold addYears ValidDate daysInMonth at *
  refine ⟨by simp; omega, by simpa using h1, by simpa using h2, ?_, ?_⟩ <;> simp <;> omega

theorem subMonths_valid {d : Date} (n : Nat) (hd : ValidDate d) :
    ValidDate (subMonths d n) := by
  obtain ⟨h0, h1, h2, h3, h4⟩ := hd
  have h28 := monthLength_ge (isLeapYear ((monthIndex d - n) / 12 + 1))
    ((monthIndex d - n) % 12 + 1) (by omega) (by omega)
  unfold subMonths ValidDate daysInMonth at *
  refine ⟨by simp, by simp, by simp; omega, ?_, ?_⟩ <;> simp <;> omega

theorem addMonths_valid {d : Date} (n : Nat) (hd : ValidDate d) :
    ValidDate (addMonths d n) := by
  obtain ⟨h0, h1, h2, h3, h4⟩ := hd
  have h28 := monthLength_ge (isLeapYear ((monthIndex d + n) / 12 + 1))
    ((monthIndex d + n) % 12 + 1) (by omega) (by omega)
  unfold addMonths ValidDate daysInMonth at *
  refine ⟨by simp, by simp, by simp; omega, ?_, ?_⟩ <;> simp <;> omega

theorem maxDate_valid : ValidDate maxDate := by decide

theorem dateLexLe_maxDate {d : Date} (hd : ValidDate d) (hy : d.year ≤ 9999) :
    dateLexLe d maxDate := by
  obtain ⟨h0, h1, h2, h3, h4⟩ := hd
  have h12 := monthLength_twelve (isLeapYear d.year)
  unfold dateLexLe maxDate daysInMonth at *
  rcases Nat.lt_or_ge d.year 9999 with h | h
  · exact Or.inl (by simpa using h)
  · have hy9 : d.year = 9999 := by omega
    rcases Nat.lt_or_ge d.month 12 with hm | hm
    · exact Or.inr ⟨by simpa using hy9, Or.inl (by simpa using hm)⟩
    · have hm12 : d.month = 12 := by omega
      refine Or.inr ⟨by simpa using hy9, Or.inr ⟨by simpa using hm12, ?_⟩⟩
      simp only
      rw [hm12] at h4
      omega

end AdapterLemmas

/-! ### Reduction lemmas for the difference algorithm -/

section ReductionLemmas

/-- Removing the whole-year count of spec section 4.1 step 2 from the later
endpoint keeps it a valid date lying between the two operands. -/
theorem subYears_wholeYears_sandwich {s e : Date} (hs : ValidDate s) (he : ValidDate e)
    (hle : dateLexLe s e) :
    ValidDate (subYears e (wholeYearsBetween s e)) ∧
    dateLexLe s (subYears e (wholeYearsBetween s e)) ∧
    dateLexLe (subYears e (wholeYearsBetween s e)) e := by
  obtain ⟨hs0, hs1, hs2, hs3, hs4⟩ := hs
  obtain ⟨he0, he1, he2, he3, he4⟩ := he
  unfold dateLexLe at hle
  by_cases hdec : e.month < s.month ∨ (e.month = s.month ∧ e.day < s.day)
  · -- decrement case: the reduced endpoint lands in the year after s
    have hyy : s.year < e.year := by omega
    have hyr : e.year - (e.year - s.year - 1) = s.year + 1 := by omega
    have h28 := monthLength_ge (isLeapYear (s.year + 1)) e.month (by omega) he1
    simp only [subYears, wholeYearsBetween, if_pos hdec, hyr]
    unfold ValidDate dateLexLe daysInMonth at *
    dsimp only
    omega
  · -- no decrement: the reduced endpoint lands in the year of s
    have hsy : s.year ≤ e.year := by omega
    have hyr : e.year - (e.year - s.year) = s.year := by omega
    rcases Nat.lt_or_ge s.month e.month with hm | hm
    · have h28 := monthLength_ge (isLeapYear s.year) e.month (by omega) he1
      simp only [subYears, wholeYearsBetween, if_neg hdec, Nat.sub_zero, hyr]
      unfold ValidDate dateLexLe daysInMonth at *
      dsimp only
      omega
    · have hmeq : e.month = s.month := by omega
      have h28 := monthLength_ge (isLeapYear s.year) s.month (by omega) hs1
      simp only [subYears, wholeYearsBetween, if_neg hdec, Nat.sub_zero, hyr]
      simp only [hmeq]
      rw [hmeq] at he4
      unfold ValidDate dateLexLe daysInMonth at *
      dsimp only
      omega

/-- Removing the whole-month count of spec section 4.1 step 3 from the
(already year-reduced) later endpoint keeps it a valid date lying between
the earlier operand and that endpoint. -/
theorem subMonths_wholeMonths_sandwich {s r : Date} (hs : ValidDate s) (hr : ValidDate r)
    (hle : dateLexLe s r) :
    ValidDate (subMonths r (wholeMonthsBetween s r)) ∧
    dateLexLe s (subMonths r (wholeMonthsBetween s r)) ∧
    dateLexLe (subMonths r (wholeMonthsBetween s r)) r := by
  have hsv := hs
  obtain ⟨hs0, hs1, hs2, hs3, hs4⟩ := hs
  obtain ⟨hr0, hr1, hr2, hr3, hr4⟩ := hr
  unfold dateLexLe at hle
  have hXs : monthIndex s = (s.year - 1) * 12 + (s.month - 1) := rfl
  have hXr : monthIndex r = (r.year - 1) * 12 + (r.month - 1) := rfl
  have hmile : monthIndex s ≤ monthIndex r := by omega
  by_cases hdec : r.day < s.day
  · -- decrement case: the reduced endpoint is the month after s
    have hmi : monthIndex s < monthIndex r := by omega
    have hieq : monthIndex r - (monthIndex r - monthIndex s - 1) = monthIndex s + 1 := by
      omega
    have h28 := monthLength_ge (isLeapYear ((monthIndex s + 1) / 12 + 1))
      ((monthIndex s + 1) % 12 + 1) (by omega) (by omega)
    simp only [subMonths, wholeMonthsBetween, if_pos hdec, hieq]
    unfold ValidDate dateLexLe daysInMonth at *
    dsimp only
    omega
  · -- no decrement: the reduced endpoint has the year and month of s
    have hieq : monthIndex r - (monthIndex r - monthIndex s) = monthIndex s := by omega
    have hdiv := monthIndex_div_twelve hsv
    have hmod := monthIndex_mod_twelve hsv
    have h28 := monthLength_ge (isLeapYear s.year) s.month (by omega) hs1
    simp only [subMonths, wholeMonthsBetween, if_neg hdec, Nat.sub_zero, hieq, hdiv, hmod]
    unfold ValidDate dateLexLe daysInMonth at *
    dsimp only
    omega

end ReductionLemmas

/-! ### Day-rollover lemmas -/

section DayLemmas

theorem nextDay_valid {d : Date} (hd : ValidDate d) : ValidDate (nextDay d) := by
  obtain ⟨h0, h1, h2, h3, h4⟩ := hd
  unfold nextDay
  split_ifs with h5 h6
  · unfold ValidDate daysInMonth at *
    dsimp only
    omega
  · have h28 := monthLength_ge (isLeapYear d.year) (d.month + 1) (by omega) (by omega)
    unfold ValidDate daysInMonth at *
    dsimp only
    omega
  · have h31 := monthLength_one (isLeapYear (d.year + 1))
    unfold ValidDate daysInMonth at *
    dsimp only
    omega

theorem toDayNumber_nextDay {d : Date} (hd : ValidDate d) :
    toDayNumber (nextDay d) = toDayNumber d + 1 := by
  obtain ⟨h0, h1, h2, h3, h4⟩ := hd
  unfold nextDay
  split_ifs with h5 h6
  · unfold toDayNumber
    dsimp only
    omega
  · -- month rollover
    have hsucc := daysBeforeMonth_succ (isLeapYear d.year) d.month (by omega) h1
    unfold toDayNumber daysInMonth at *
    dsimp only
    omega
  · -- year rollover
    have h12 : d.month = 12 := by omega
    have h31 := monthLength_twelve (isLeapYear d.year)
    have h13 := daysBeforeMonth_thirteen (isLeapYear d.year)
    have hsucc := daysBeforeMonth_succ (isLeapYear d.year) 12 (by omega) (by omega)
    norm_num at hsucc
    have hy := daysBeforeYear_succ d.year h0
    have hdb1 : daysBeforeMonth (isLeapYear (d.year + 1)) 1 = 0 := by
      cases isLeapYear (d.year + 1) <;> rfl
    unfold toDayNumber daysInMonth at *
    dsimp only
    rw [h12] at h4 h5 ⊢
    rw [hy, hdb1, ← h13]
    omega

theorem prevDay_valid {d : Date} (hd : ValidDate d) (hne : d ≠ minDate) :
    ValidDate (prevDay d) := by
  obtain ⟨dy, dm, dd⟩ := d
  simp only [minDate, ne_eq, Date.mk.injEq] at hne
  obtain ⟨h0, h1, h2, h3, h4⟩ := hd
  dsimp only at h0 h1 h2 h3 h4
  unfold prevDay
  dsimp only
  split_ifs with h5 h6
  · unfold ValidDate daysInMonth at *
    dsimp only
    omega
  · have h28 := monthLength_ge (isLeapYear dy) (dm - 1) (by omega) (by omega)
    unfold ValidDate daysInMonth at *
    dsimp only
    omega
  · have h31 := monthLength_twelve (isLeapYear (dy - 1))
    unfold ValidDate daysInMonth at *
    dsimp only
    omega

theorem prevDay_year_le (d : Date) : (prevDay d).year ≤ d.year := by
  unfold prevDay
  split_ifs <;> dsimp only <;> omega

theorem nextDay_prevDay {d : Date} (hd : ValidDate d) : nextDay (prevDay d) = d := by
  obtain ⟨dy, dm, dd⟩ := d
  obtain ⟨h0, h1, h2, h3, h4⟩ := hd
  dsimp only at h0 h1 h2 h3 h4
  unfold prevDay
  dsimp only
  split_ifs with h5 h6
  · unfold nextDay
    dsimp only
    rw [if_pos (by unfold daysInMonth at h4 ⊢; omega)]
    simp only [Date.mk.injEq, true_and, and_true]
    omega
  · unfold nextDay
    dsimp only
    rw [if_neg (by omega), if_pos (by omega)]
    simp only [Date.mk.injEq, true_and, and_true]
    omega
  · have h31 := monthLength_twelve (isLeapYear (dy - 1))
    unfold nextDay
    dsimp only
    rw [if_neg (by unfold daysInMonth; omega), if_neg (by omega)]
    simp only [Date.mk.injEq, true_and, and_true]
    omega

theorem toDayNumber_prevDay {d : Date} (hd : ValidDate d) (hne : d ≠ minDate) :
    toDayNumber (prevDay d) + 1 = toDayNumber d := by
  have hv := prevDay_valid hd hne
  have h := toDayNumber_nextDay hv
  rw [nextDay_prevDay hd] at h
  omega

theorem addDaysChecked_succ_right (n : Nat) : ∀ d : Date,
    addDaysChecked d (n + 1) =
      (addDaysChecked d n).bind
        (fun x => if x = maxDate then none else some (nextDay x)) := by
  induction n with
  | zero =>
    intro d
    rfl
  | succ n ih =>
    intro d
    rw [show addDaysChecked d (n + 1 + 1) =
        if d = maxDate then none else addDaysChecked (nextDay d) (n + 1) from rfl]
    rw [show addDaysChecked d (n + 1) =
        if d = maxDate then none else addDaysChecked (nextDay d) n from rfl]
    by_cases hc : d = maxDate
    · rw [if_pos hc, if_pos hc]
      rfl
    · rw [if_neg hc, if_neg hc, ih (nextDay d)]

theorem subDaysChecked_spec (n : Nat) : ∀ {d e : Date}, ValidDate d → d.year ≤ 9999 →
    subDaysChecked d n = some e →
    ValidDate e ∧ e.year ≤ 9999 ∧ toDayNumber e + n = toDayNumber d ∧
      addDaysChecked e n = some d := by
  induction n with
  | zero =>
    intro d e hd h9 h
    have he : d = e := by simpa [subDaysChecked] using h
    subst he
    exact ⟨hd, h9, rfl, rfl⟩
  | succ n ih =>
    intro d e hd h9 h
    by_cases hc : d = minDate
    · simp [subDaysChecked, hc] at h
    · rw [show subDaysChecked d (n + 1) =
          subDaysChecked (prevDay d) n from by rw [subDaysChecked, if_neg hc]] at h
      have hpv := prevDay_valid hd hc
      have hpy : (prevDay d).year ≤ 9999 := le_trans (prevDay_year_le d) h9
      obtain ⟨he, he9, hnum, hadd⟩ := ih hpv hpy h
      have hpn := toDayNumber_prevDay hd hc
      refine ⟨he, he9, by omega, ?_⟩
      rw [addDaysChecked_succ_right n e, hadd]
      have hmax : prevDay d ≠ maxDate := by
        intro hcontra
        have h1 := nextDay_prevDay hd
        rw [hcontra] at h1
        have h2 : nextDay maxDate = ⟨10000, 1, 1⟩ := by decide
        rw [h2] at h1
        rw [show d = (⟨10000, 1, 1⟩ : Date) from h1.symm] at h9
        simp at h9
      rw [show (some (prevDay d)).bind
            (fun x => if x = maxDate then none else some (nextDay x)) =
            if prevDay d = maxDate then none else some (nextDay (prevDay d)) from rfl]
      rw [if_neg hmax, nextDay_prevDay hd]

theorem addDaysChecked_isSome_iff (n : Nat) : ∀ {d : Date}, ValidDate d →
    dateLexLe d maxDate →
    ((addDaysChecked d n).isSome = true ↔ toDayNumber d + n ≤ toDayNumber maxDate) := by
  induction n with
  | zero =>
    intro d hd hle
    have := toDayNumber_le_of_lex hd maxDate_valid hle
    simp [addDaysChecked]
    omega
  | succ n ih =>
    intro d hd hle
    by_cases hc : d = maxDate
    · subst hc
      simp [addDaysChecked]
    · have hdlt : dateLexLt d maxDate := by
        rcases dateLex_trichotomy d maxDate with h | h | h
        · exact h
        · exact absurd h hc
        · have h1 := toDayNumber_lt_of_lex maxDate_valid hd h
          have h2 := toDayNumber_le_of_lex hd maxDate_valid hle
          omega
      have htd := toDayNumber_lt_of_lex hd maxDate_valid hdlt
      have hnv := nextDay_valid hd
      have htn := toDayNumber_nextDay hd
      have hnle : dateLexLe (nextDay d) maxDate :=
        dateLexLe_of_toDayNumber_le hnv maxDate_valid (by omega)
      rw [show addDaysChecked d (n + 1) = addDaysChecked (nextDay d) n from by
        rw [addDaysChecked, if_neg hc]]
      rw [ih hnv hnle, htn]
      omega

theorem subDaysChecked_isSome_iff (n : Nat) : ∀ {d : Date}, ValidDate d →
    ((subDaysChecked d n).isSome = true ↔ n + 1 ≤ toDayNumber d) := by
  induction n with
  | zero =>
    intro d hd
    have := toDayNumber_pos hd
    simp [subDaysChecked]
    omega
  | succ n ih =>
    intro d hd
    by_cases hc : d = minDate
    · subst hc
      simp [subDaysChecked]
      have : toDayNumber minDate = 1 := rfl
      omega
    · have hpv := prevDay_valid hd hc
      have hpn := toDayNumber_prevDay hd hc
      rw [show subDaysChecked d (n + 1) = subDaysChecked (prevDay d) n from by
        rw [subDaysChecked, if_neg hc]]
      rw [ih hpv]
      omega

end DayLemmas

/-! ### Engine-level lemmas -/

section EngineLemmas

theorem AddDuration_eq {d d1 d2 : Date} (dur : DateDifference)
    (h1 : addYearsChecked d dur.year = some d1)
    (h2 : addMonthsChecked d1 dur.month = some d2) :
    AddDuration d dur = addDaysChecked d2 dur.day := by
  unfold AddDuration
  rw [h1]
  show (addMonthsChecked d1 dur.month).bind (fun x => addDaysChecked x dur.day) =
    addDaysChecked d2 dur.day
  rw [h2]
  rfl

theorem SubtractDuration_eq {d d1 d2 : Date} (dur : DateDifference)
    (h1 : subYearsChecked d dur.year = some d1)
    (h2 : subMonthsChecked d1 dur.month = some d2) :
    SubtractDuration d dur = subDaysChecked d2 dur.day := by
  unfold SubtractDuration
  rw [h1]
  show (subMonthsChecked d1 dur.month).bind (fun x => subDaysChecked x dur.day) =
    subDaysChecked d2 dur.day
  rw [h2]
  rfl

theorem AddDuration_isSome_iff {d : Date} (dur : DateDifference) (hd : ValidDate d) :
    ((AddDuration d dur).isSome = true ↔
      (addYears d dur.year).year ≤ 9999 ∧
      (addMonths (addYears d dur.year) dur.month).year ≤ 9999 ∧
      toDayNumber (addMonths (addYears d dur.year) dur.month) + dur.day ≤
        toDayNumber maxDate) := by
  have e1 : (addYears d dur.year).year = d.year + dur.year := rfl
  have e2 : (addMonths (addYears d dur.year) dur.month).year =
      (monthIndex (addYears d dur.year) + dur.month) / 12 + 1 := rfl
  by_cases hc1 : d.year + dur.year ≤ 9999
  · have h1 : addYearsChecked d dur.year = some (addYears d dur.year) := by
      unfold addYearsChecked
      rw [if_pos hc1]
    have hv1 : ValidDate (addYears d dur.year) := addYears_valid dur.year hd
    by_cases hc2 : (monthIndex (addYears d dur.year) + dur.month) / 12 + 1 ≤ 9999
    · have h2 : addMonthsChecked (addYears d dur.year) dur.month =
          some (addMonths (addYears d dur.year) dur.month) := by
        unfold addMonthsChecked
        rw [if_pos hc2]
      have hv2 : ValidDate (addMonths (addYears d dur.year) dur.month) :=
        addMonths_valid dur.month hv1
      have hle2 : dateLexLe (addMonths (addYears d dur.year) dur.month) maxDate :=
        dateLexLe_maxDate hv2 (by rw [e2]; exact hc2)
      rw [AddDuration_eq dur h1 h2]
      rw [addDaysChecked_isSome_iff dur.day hv2 hle2]
      constructor
      · intro hh
        exact ⟨by rw [e1]; exact hc1, by rw [e2]; exact hc2, hh⟩
      · intro hh
        exact hh.2.2
    · have hnone : AddDuration d dur = none := by
        unfold AddDuration
        rw [h1]
        show (addMonthsChecked (addYears d dur.year) dur.month).bind
          (fun x => addDaysChecked x dur.day) = none
        unfold addMonthsChecked
        rw [if_neg hc2]
        rfl
      rw [hnone]
      simp only [Option.isSome_none, Bool.false_eq_true, false_iff]
      intro hh
      exact hc2 (by rw [← e2]; exact hh.2.1)
  · have hnone : AddDuration d dur = none := by
      unfold AddDuration addYearsChecked
      rw [if_neg hc1]
      rfl
    rw [hnone]
    simp only [Option.isSome_none, Bool.false_eq_true, false_iff]
    intro hh
    exact hc1 (by rw [← e1]; exact hh.1)

theorem SubtractDuration_isSome_iff {d : Date} (dur : DateDifference)
    (hd : ValidDate d) :
    ((SubtractDuration d dur).isSome = true ↔
      dur.year < d.year ∧
      dur.month ≤ monthIndex (subYears d dur.year) ∧
      dur.day + 1 ≤ toDayNumber (subMonths (subYears d dur.year) dur.month)) := by
  by_cases hc1 : dur.year < d.year
  · have h1 : subYearsChecked d dur.year = some (subYears d dur.year) := by
      unfold subYearsChecked
      rw [if_pos hc1]
    have hv1 : ValidDate (subYears d dur.year) := subYears_valid dur.year hd (by omega)
    by_cases hc2 : dur.month ≤ monthIndex (subYears d dur.year)
    · have h2 : subMonthsChecked (subYears d dur.year) dur.month =
          some (subMonths (subYears d dur.year) dur.month) := by
        unfold subMonthsChecked
        rw [if_pos hc2]
      have hv2 : ValidDate (subMonths (subYears d dur.year) dur.month) :=
        subMonths_valid dur.month hv1
      rw [SubtractDuration_eq dur h1 h2]
      rw [subDaysChecked_isSome_iff dur.day hv2]
      constructor
      · intro hh
        exact ⟨hc1, hc2, hh⟩
      · intro hh
        exact hh.2.2
    · have hnone : SubtractDuration d dur = none := by
        unfold SubtractDuration
        rw [h1]
        show (subMonthsChecked (subYears d dur.year) dur.month).bind
          (fun x => subDaysChecked x dur.day) = none
        unfold subMonthsChecked
        rw [if_neg hc2]
        rfl
      rw [hnone]
      simp only [Option.isSome_none, Bool.false_eq_true, false_iff]
      intro hh
      exact hc2 hh.2.1
  · have hnone : SubtractDuration d dur = none := by
      unfold SubtractDuration subYearsChecked
      rw [if_neg hc1]
      rfl
    rw [hnone]
    simp only [Option.isSome_none, Bool.false_eq_true, false_iff]
    intro hh
    exact hc1 hh.1

/-- The decomposed all-units magnitude, re-summed into days, equals the
plain day count, for ordered valid operands. -/
theorem diffMagnitude_resum {s e : Date} (hs : ValidDate s) (he : ValidDate e)
    (hle : dateLexLe s e) :
    reSumTotalDays e (diffMagnitude s e allDateUnitsOutputFormat)
      = (diffMagnitude s e daysOutputFormat).day := by
  obtain ⟨hr1v, hsr1, hr1e⟩ := subYears_wholeYears_sandwich hs he hle
  obtain ⟨hr2v, hsr2, hr2r1⟩ := subMonths_wholeMonths_sandwich hs hr1v hsr1
  have h1 := toDayNumber_le_of_lex hs hr2v hsr2
  have h2 := toDayNumber_le_of_lex hr2v hr1v hr2r1
  have h3 := toDayNumber_le_of_lex hr1v he hr1e
  have hz1 := subYears_zero he
  have hz2 := subMonths_zero he
  simp only [diffMagnitude, reSumTotalDays, allDateUnitsOutputFormat, daysOutputFormat,
    reduceIte, Bool.false_eq_true, if_false]
  rw [hz1, hz2]
  omega

end EngineLemmas

/-! ### Claim theorems -/

section Claims

/-- C1: `GetDateDifference` on fromDate 2020-01-15, toDate 2023-03-20 with the
all-units mask returns Duration{years 3, months 2, weeks 0, days 5}, and the
decomposition follows the section 4.1 algorithm step by step: 3 whole years
are removed from the later endpoint giving 2020-03-20, then 2 whole months
giving 2020-01-20, and the 5-day remainder splits into 0 weeks and 5 days. -/
theorem c1_example_decomposition :
    GetDateDifference ⟨2020, 1, 15⟩ ⟨2023, 3, 20⟩ allDateUnitsOutputFormat
        = ⟨3, 2, 0, 5⟩ ∧
    wholeYearsBetween ⟨2020, 1, 15⟩ ⟨2023, 3, 20⟩ = 3 ∧
    subYears ⟨2023, 3, 20⟩ 3 = ⟨2020, 3, 20⟩ ∧
    wholeMonthsBetween ⟨2020, 1, 15⟩ ⟨2020, 3, 20⟩ = 2 ∧
    subMonths ⟨2020, 3, 20⟩ 2 = ⟨2020, 1, 20⟩ ∧
    toDayNumber ⟨2020, 1, 20⟩ - toDayNumber ⟨2020, 1, 15⟩ = 5 := by
  decide

/-- C2: for valid dates with fromDate at most toDate, the all-units result of
`GetDateDifference`, re-summed into a total day count on the calendar
(`reSumTotalDays`), equals the day field of the days-only result, which is
the full elapsed day count. -/
theorem c2_resum_equals_days_only {fromDate toDate : Date}
    (hf : ValidDate fromDate) (ht : ValidDate toDate)
    (hle : dateLexLe fromDate toDate) :
    reSumTotalDays toDate (GetDateDifference fromDate toDate allDateUnitsOutputFormat)
      = (GetDateDifference fromDate toDate daysOutputFormat).day := by
  have hns : ¬ toDayNumber toDate < toDayNumber fromDate := by
    have := toDayNumber_le_of_lex hf ht hle
    omega
  unfold GetDateDifference
  rw [if_neg hns, if_neg hns]
  exact diffMagnitude_resum hf ht hle

theorem c2_witness :
    reSumTotalDays ⟨2023, 3, 20⟩
        (GetDateDifference ⟨2020, 1, 15⟩ ⟨2023, 3, 20⟩ allDateUnitsOutputFormat)
      = (GetDateDifference ⟨2020, 1, 15⟩ ⟨2023, 3, 20⟩ daysOutputFormat).day :=
  c2_resum_equals_days_only (by decide) (by decide) (by decide)

/-- C3 counterexample: the round-trip law fails when the duration has a month
component, because month rollover clamps the day-of-month: subtracting one
month from 2021-03-31 gives 2021-02-28, and adding one month back gives
2021-03-28, not 2021-03-31. -/
theorem c3_counterexample :
    SubtractDuration ⟨2021, 3, 31⟩ ⟨0, 1, 0, 0⟩ = some ⟨2021, 2, 28⟩ ∧
    AddDuration ⟨2021, 2, 28⟩ ⟨0, 1, 0, 0⟩ = some ⟨2021, 3, 28⟩ ∧
    (⟨2021, 3, 28⟩ : Date) ≠ ⟨2021, 3, 31⟩ := by
  decide

/-- C3 (amended): for day-only durations (year and month fields zero), the
round-trip law holds: whenever `SubtractDuration` succeeds on an in-range
valid date, `AddDuration` of the same duration on the result returns the
original date. -/
theorem c3_roundtrip_day_durations {d e : Date} (n : Nat)
    (hd : ValidDate d) (h9 : d.year ≤ 9999)
    (h : SubtractDuration d ⟨0, 0, 0, n⟩ = some e) :
    AddDuration e ⟨0, 0, 0, n⟩ = some d := by
  have hd0 : 1 ≤ d.year := hd.1
  have h1 : subYearsChecked d 0 = some d := by
    unfold subYearsChecked
    rw [if_pos (by omega), subYears_zero hd]
  have h2 : subMonthsChecked d 0 = some d := by
    unfold subMonthsChecked
    rw [if_pos (by omega), subMonths_zero hd]
  rw [SubtractDuration_eq ⟨0, 0, 0, n⟩ h1 h2] at h
  obtain ⟨hev, he9, hnum, hadd⟩ := subDaysChecked_spec n hd h9 h
  have ha1 : addYearsChecked e 0 = some e := by
    unfold addYearsChecked
    rw [if_pos (by omega), addYears_zero hev]
  have hmi := monthIndex_div_twelve hev
  have ha2 : addMonthsChecked e 0 = some e := by
    unfold addMonthsChecked
    rw [if_pos (by omega), addMonths_zero hev]
  rw [AddDuration_eq ⟨0, 0, 0, n⟩ ha1 ha2]
  exact hadd

theorem c3_roundtrip_witness :
    AddDuration ⟨2021, 2, 19⟩ ⟨0, 0, 0, 40⟩ = some ⟨2021, 3, 31⟩ :=
  c3_roundtrip_day_durations 40 (by decide) (by decide) (by decide)

/-- C4: evaluating the section 4.1 algorithm as literally specified on
fromDate 2020-02-29 (a leap day) and toDate 2021-02-28 with the years-only
mask yields 0 years, not the 1 year the spec's leap-day expectation (and this
claim) demand: the year count 1 is decremented because (Feb 28) precedes
(Feb 29) in (month, day) order. -/
theorem c4_leapday_years_eval :
    GetDateDifference ⟨2020, 2, 29⟩ ⟨2021, 2, 28⟩ ⟨true, false, false, false⟩
      = ⟨0, 0, 0, 0⟩ := by
  decide

/-- C5: adding one month to January 31 of any representable year succeeds and
clamps to the last valid day of February of that year (29 in a leap year, 28
otherwise), never overflowing into March. -/
theorem c5_month_rollover_clamps (y : Nat) (h1 : 1 ≤ y) (h9 : y ≤ 9999) :
    AddDuration ⟨y, 1, 31⟩ ⟨0, 1, 0, 0⟩ =
      some ⟨y, 2, if isLeapYear y then 29 else 28⟩ ∧
    daysInMonth y 2 = (if isLeapYear y then 29 else 28) := by
  have hv : ValidDate ⟨y, 1, 31⟩ := by
    unfold ValidDate daysInMonth
    dsimp only
    rw [monthLength_one]
    omega
  have hstage1 : addYearsChecked ⟨y, 1, 31⟩ 0 = some ⟨y, 1, 31⟩ := by
    unfold addYearsChecked
    dsimp only
    rw [if_pos (by omega), addYears_zero hv]
  have hdim : daysInMonth y 2 = (if isLeapYear y then 29 else 28) := by
    unfold daysInMonth
    cases isLeapYear y <;> rfl
  have hstage2 : addMonthsChecked ⟨y, 1, 31⟩ 1 =
      some ⟨y, 2, if isLeapYear y then 29 else 28⟩ := by
    unfold addMonthsChecked addMonths monthIndex
    dsimp only
    have e1 : (y - 1) * 12 + (1 - 1) + 1 = (y - 1) * 12 + 1 := by omega
    rw [e1]
    have e2 : ((y - 1) * 12 + 1) / 12 + 1 = y := by omega
    have e3 : ((y - 1) * 12 + 1) % 12 + 1 = 2 := by omega
    rw [e2, e3, if_pos h9, hdim]
    cases isLeapYear y <;> rfl
  refine ⟨?_, hdim⟩
  rw [AddDuration_eq ⟨0, 1, 0, 0⟩ hstage1 hstage2]
  rfl

theorem c5_witness :
    AddDuration ⟨2024, 1, 31⟩ ⟨0, 1, 0, 0⟩ =
      some ⟨2024, 2, if isLeapYear 2024 then 29 else 28⟩ ∧
    daysInMonth 2024 2 = (if isLeapYear 2024 then 29 else 28) :=
  c5_month_rollover_clamps 2024 (by decide) (by decide)

/-- C6: `AddDuration` and `SubtractDuration` succeed exactly when every stage
(year offset, month offset, day offset) keeps the date inside the
representable range (year 1 through 9999); on failure the functional result
is `none` - no usable timestamp - and the view-model's `OnInputsChanged`
leaves `DateResult` unmodified, setting `IsOutOfBound` instead. -/
theorem c6_out_of_range_signalling (d : Date) (dur : DateDifference)
    (s : VMState) (r : VMResults) (hd : ValidDate d)
    (hle : dateLexLe d maxDate) :
    ((AddDuration d dur).isSome = true ↔
      (addYears d dur.year).year ≤ 9999 ∧
      (addMonths (addYears d dur.year) dur.month).year ≤ 9999 ∧
      toDayNumber (addMonths (addYears d dur.year) dur.month) + dur.day ≤
        toDayNumber maxDate) ∧
    ((SubtractDuration d dur).isSome = true ↔
      dur.year < d.year ∧
      dur.month ≤ monthIndex (subYears d dur.year) ∧
      dur.day + 1 ≤ toDayNumber (subMonths (subYears d dur.year) dur.month)) ∧
    (s.isDateDiffMode = false → s.isAddMode = true →
      addDurationVM s.startDate (offsetDuration s) = none →
      (onInputsChanged s r).dateResult = r.dateResult ∧
      (onInputsChanged s r).isOutOfBound = true) ∧
    (s.isDateDiffMode = false → s.isAddMode = false →
      subtractDurationVM s.startDate (offsetDuration s) = none →
      (onInputsChanged s r).dateResult = r.dateResult ∧
      (onInputsChanged s r).isOutOfBound = true) := by
  have hrange : dateLexLe d maxDate := hle
  refine ⟨AddDuration_isSome_iff dur hd, SubtractDuration_isSome_iff dur hd, ?_, ?_⟩
  · intro h1 h2 h3
    simp [onInputsChanged, h1, h2, h3]
  · intro h1 h2 h3
    simp [onInputsChanged, h1, h2, h3]

theorem c6_witness :
    AddDuration ⟨9999, 12, 31⟩ ⟨0, 0, 0, 1⟩ = none := by
  have h := (c6_out_of_range_signalling ⟨9999, 12, 31⟩ ⟨0, 0, 0, 1⟩
      ⟨false, true, ⟨⟨2020, 1, 1⟩, 0⟩, ⟨⟨2020, 1, 1⟩, 0⟩, ⟨⟨2020, 1, 1⟩, 0⟩, 0, 0, 0⟩
      ⟨⟨0, 0, 0, 0⟩, ⟨0, 0, 0, 0⟩, false, ⟨⟨2020, 1, 1⟩, 0⟩⟩
      (by decide) (by decide)).1
  rw [← Option.not_isSome_iff_eq_none, h]
  decide

/-- C7: `GetDateDifference` is order independent on valid dates: the engine
swaps operands when the second precedes the first on the timestamp axis and
always reports the unsigned magnitude. -/
theorem c7_order_independence (a b : Date) (mask : DateUnitMask)
    (ha : ValidDate a) (hb : ValidDate b) :
    GetDateDifference a b mask = GetDateDifference b a mask := by
  unfold GetDateDifference
  rcases Nat.lt_trichotomy (toDayNumber a) (toDayNumber b) with h | h | h
  · rw [if_neg (by omega), if_pos h]
  · have hab : a = b := toDayNumber_inj ha hb h
    subst hab
    rfl
  · rw [if_pos h, if_neg (by omega)]

theorem c7_witness :
    GetDateDifference ⟨2020, 1, 15⟩ ⟨2023, 3, 20⟩ daysOutputFormat
      = GetDateDifference ⟨2023, 3, 20⟩ ⟨2020, 1, 15⟩ daysOutputFormat :=
  c7_order_independence ⟨2020, 1, 15⟩ ⟨2023, 3, 20⟩ daysOutputFormat
    (by decide) (by decide)

/-- C8: `GetDateDifference` of a valid date with itself is the all-zero
duration for every unit mask; the operation is total and has no failure
states. -/
theorem c8_identical_dates_zero (d : Date) (mask : DateUnitMask)
    (hd : ValidDate d) :
    GetDateDifference d d mask = ⟨0, 0, 0, 0⟩ := by
  have hy : wholeYearsBetween d d = 0 := by
    unfold wholeYearsBetween
    split_ifs <;> omega
  have hm : wholeMonthsBetween d d = 0 := by
    unfold wholeMonthsBetween
    split_ifs <;> omega
  unfold GetDateDifference
  rw [if_neg (lt_irrefl _)]
  simp only [diffMagnitude]
  rw [hy, ite_self]
  rw [subYears_zero hd]
  rw [hm, ite_self]
  rw [subMonths_zero hd]
  simp

theorem c8_witness : GetDateDifference ⟨2021, 7, 4⟩ ⟨2021, 7, 4⟩
    allDateUnitsOutputFormat = ⟨0, 0, 0, 0⟩ :=
  c8_identical_dates_zero ⟨2021, 7, 4⟩ allDateUnitsOutputFormat (by decide)

/-- C9: on every date-difference computation `OnInputsChanged` passes both
operands through `ClipTime`, which keeps the calendar day and zeroes the
time of day (midnight UTC); in add/subtract mode the start date is passed to
the engine unclipped, with whatever time of day it carries. -/
theorem c9_clip_before_difference (s : VMState) (t : DateTimeVM) :
    ((ClipTime t).date = t.date ∧ (ClipTime t).timeOfDay = 0) ∧
    (s.isDateDiffMode = true →
      onInputsChangedCalls s =
        [EngineCall.getDateDifference ⟨s.fromDate.date, 0⟩ ⟨s.toDate.date, 0⟩
            allDateUnitsOutputFormat,
         EngineCall.getDateDifference ⟨s.fromDate.date, 0⟩ ⟨s.toDate.date, 0⟩
            daysOutputFormat]) ∧
    (s.isDateDiffMode = false → s.isAddMode = true →
      onInputsChangedCalls s =
        [EngineCall.addDuration s.startDate
            ⟨s.yearsOffset, s.monthsOffset, 0, s.daysOffset⟩]) ∧
    (s.isDateDiffMode = false → s.isAddMode = false →
      onInputsChangedCalls s =
        [EngineCall.subtractDuration s.startDate
            ⟨s.yearsOffset, s.monthsOffset, 0, s.daysOffset⟩]) := by
  refine ⟨⟨rfl, rfl⟩, ?_, ?_, ?_⟩
  · intro h
    simp [onInputsChangedCalls, ClipTime, h]
  · intro h1 h2
    simp [onInputsChangedCalls, offsetDuration, h1, h2]
  · intro h1 h2
    simp [onInputsChangedCalls, offsetDuration, h1, h2]

theorem c9_witness :
    onInputsChangedCalls
        ⟨true, true, ⟨⟨2020, 1, 15⟩, 37⟩, ⟨⟨2023, 3, 20⟩, 99⟩, ⟨⟨2021, 1, 1⟩, 55⟩, 0, 0, 0⟩ =
      [EngineCall.getDateDifference ⟨⟨2020, 1, 15⟩, 0⟩ ⟨⟨2023, 3, 20⟩, 0⟩
          allDateUnitsOutputFormat,
       EngineCall.getDateDifference ⟨⟨2020, 1, 15⟩, 0⟩ ⟨⟨2023, 3, 20⟩, 0⟩
          daysOutputFormat] :=
  (c9_clip_before_difference
    ⟨true, true, ⟨⟨2020, 1, 15⟩, 37⟩, ⟨⟨2023, 3, 20⟩, 99⟩, ⟨⟨2021, 1, 1⟩, 55⟩, 0, 0, 0⟩
    ⟨⟨2022, 2, 2⟩, 11⟩).2.1 rfl

/-- C10: `OnPropertyChanged` triggers a recomputation exactly when the
changed property is none of the six output-related names; a change of
`StrDateDiffResult` or `StrDateResult` only refreshes the corresponding
automation name, so writing an output property never re-enters the
computation. -/
theorem c10_property_dispatch (p : String) :
    (OnPropertyChanged p = PropAction.recompute ↔ p ∉ outputPropertyNames) ∧
    (OnPropertyChanged p = PropAction.updateDiffAutomationName ↔
      p = "StrDateDiffResult") ∧
    (OnPropertyChanged p = PropAction.updateResultAutomationName ↔
      p = "StrDateResult") := by
  by_cases h1 : p = "StrDateDiffResult"
  · subst h1
    decide
  · by_cases h2 : p = "StrDateResult"
    · subst h2
      decide
    · by_cases h3 : p = "StrDateDiffResultAutomationName"
      · subst h3
        decide
      · by_cases h4 : p = "StrDateDiffResultInDays"
        · subst h4
          decide
        · by_cases h5 : p = "StrDateResultAutomationName"
          · subst h5
            decide
          · by_cases h6 : p = "IsDiffInDays"
            · subst h6
              decide
            · simp [OnPropertyChanged, outputPropertyNames, h1, h2, h3, h4, h5, h6]

end Claims


end DateCalc
